/-
Verification of the Kosha Python client SDK (sdks/python/kosha_client.py).

The development shallowly embeds the SDK's core: the JSON value model the
client manipulates (Python dicts / lists / scalars), the canonical
serialization used by AuditHashValidator.compute_audit_hash
(json.dumps with sort_keys=True and default=str, followed by SHA-256 of
the UTF-8 bytes), AuditHashValidator.validate_result, and the batch
pipeline BatchProcessor.process_batch / BatchProcessor.process_all.

External effects are made explicit: HTTP responses, wall-clock durations
and timestamps are inputs; raised Python exceptions become Except errors;
console printing and progress callbacks are modelled as traces returned
alongside the summary.  Definitions come first, the theorems about them
follow.
-/
import Mathlib

namespace Kosha

/-- JSON-representable Python values: None, bool, int, str, list, dict.
(Transaction payloads in the SDK are dicts of such values; the client
treats them as opaque.) -/
inductive JsonValue where
  | null : JsonValue
  | bool : Bool → JsonValue
  | num : Int → JsonValue
  | str : String → JsonValue
  | arr : List JsonValue → JsonValue
  | obj : List (String × JsonValue) → JsonValue

/-- A Python dict with string keys, as an association list in insertion
order (Python dicts have unique keys; theorems that need uniqueness carry a
Nodup hypothesis on the keys). -/
abbrev Dict := List (String × JsonValue)

/-- Subscript lookup on a dict: the value of the first entry with the given
key. -/
def getKey : Dict → String → Option JsonValue
  | [], _ => none
  | (k2, v) :: rest, k => if k2 = k then some v else getKey rest k

/-- Python membership test on a dict. -/
def hasKey (d : Dict) (k : String) : Bool :=
  (getKey d k).isSome

/-- Assignment of one key in a dict literal: update in place if the key
exists, append otherwise (insertion order preserved, as in CPython). -/
def setKey : Dict → String → JsonValue → Dict
  | [], k, v => [(k, v)]
  | (k2, v2) :: rest, k, v =>
      if k2 = k then (k, v) :: rest else (k2, v2) :: setKey rest k v

/-- Lowercase hexadecimal digit. -/
def hexDigitChar (n : Nat) : Char :=
  if n < 10 then Char.ofNat (48 + n) else Char.ofNat (87 + n)

/-- Four lowercase hex digits, as Python writes unicode escapes. -/
def hex4 (n : Nat) : String :=
  String.mk [hexDigitChar (n / 4096 % 16), hexDigitChar (n / 256 % 16),
             hexDigitChar (n / 16 % 16), hexDigitChar (n % 16)]

/-- Escaping of one character in a JSON string as json.dumps does with its
default ensure_ascii=True: the double quote (code 34) and backslash (92)
get a backslash, the common control characters get two-character escapes,
all other control characters and all non-ASCII characters become a
four-hex-digit unicode escape (surrogate pairs above the BMP). -/
def escapeChar (c : Char) : String :=
  let n := c.toNat
  if n = 34 then "\\\""
  else if n = 92 then "\\\\"
  else if n = 10 then "\\n"
  else if n = 9 then "\\t"
  else if n = 13 then "\\r"
  else if n = 8 then "\\b"
  else if n = 12 then "\\f"
  else if n < 32 then "\\u" ++ hex4 n
  else if n < 127 then String.singleton c
  else if n < 65536 then "\\u" ++ hex4 n
  else
    "\\u" ++ hex4 (55296 + (n - 65536) / 1024) ++
      "\\u" ++ hex4 (56320 + (n - 65536) % 1024)

/-- A JSON string literal: quoted, characters escaped. -/
def jsonQuote (s : String) : String :=
  "\"" ++ String.join (s.data.map escapeChar) ++ "\""

/-- Comparison of dict entries by key, the order sort_keys=True sorts by
(CPython compares the key-value tuples, but keys of one dict are distinct
so only the key matters). -/
def entryLe (a b : String × JsonValue) : Prop := a.1 ≤ b.1

instance : DecidableRel entryLe := fun a b =>
  inferInstanceAs (Decidable (a.1 ≤ b.1))

instance : IsTotal (String × JsonValue) entryLe :=
  ⟨fun a b => le_total a.1 b.1⟩

instance : IsTrans (String × JsonValue) entryLe :=
  ⟨fun _ _ _ h1 h2 => le_trans h1 h2⟩

/-- The entries of a dict in the order the sorted-keys serialization emits
them. -/
def sortedEntries (kvs : Dict) : Dict :=
  List.insertionSort entryLe kvs

/-- The sorted entry list is a permutation of the original entries. -/
def sortedEntries_perm (kvs : Dict) : List.Perm (sortedEntries kvs) kvs :=
  List.perm_insertionSort entryLe kvs

/-- Permuting a list does not change its sizeOf (used for the termination
of the serializer below, whose object case recurses through the sorted
entry list). -/
def sizeOf_eq_of_perm {α : Type} [SizeOf α] {l1 l2 : List α}
    (h : List.Perm l1 l2) : sizeOf l1 = sizeOf l2 := by
  induction h with
  | nil => rfl
  | cons a _ ih => simp [ih]
  | swap a b l => simp; omega
  | trans _ _ ih1 ih2 => omega

mutual

/-- Canonical serialization: json.dumps with sort_keys=True, default=str
and CPython's default separators (comma-space and colon-space) — the byte
form compute_audit_hash feeds to SHA-256 (kosha_client.py line 65). -/
def serialize : JsonValue → String
  | .null => "null"
  | .bool b => if b then "true" else "false"
  | .num n => toString n
  | .str s => jsonQuote s
  | .arr xs => "[" ++ String.intercalate ", " (serializeItems xs) ++ "]"
  | .obj kvs =>
      "\x7b" ++ String.intercalate ", " (serializeEntries (sortedEntries kvs)) ++ "\x7d"
termination_by v => sizeOf v
decreasing_by
  all_goals simp_wf
  all_goals first
    | omega
    | (simp; omega)
    | (have hp := sizeOf_eq_of_perm (sortedEntries_perm kvs); simp at hp ⊢; omega)
    | (have hp := sizeOf_eq_of_perm (sortedEntries_perm kvs); omega)

/-- The serialized elements of a JSON array, in order. -/
def serializeItems : List JsonValue → List String
  | [] => []
  | x :: xs => serialize x :: serializeItems xs
termination_by l => sizeOf l
decreasing_by
  all_goals simp_wf
  all_goals first
    | omega
    | (simp; omega)

/-- The serialized key-value fragments of a JSON object, in the order of
the given entry list. -/
def serializeEntries : List (String × JsonValue) → List String
  | [] => []
  | (k, v) :: rest => (jsonQuote k ++ ": " ++ serialize v) :: serializeEntries rest
termination_by l => sizeOf l
decreasing_by
  all_goals simp_wf
  all_goals first
    | omega
    | (simp; omega)

end

/-- UTF-8 encoding of one character (Python str.encode default). -/
def utf8Char (c : Char) : List Nat :=
  let n := c.toNat
  if n < 128 then [n]
  else if n < 2048 then [192 + n / 64, 128 + n % 64]
  else if n < 65536 then [224 + n / 4096, 128 + n / 64 % 64, 128 + n % 64]
  else [240 + n / 262144, 128 + n / 4096 % 64, 128 + n / 64 % 64, 128 + n % 64]

/-- UTF-8 bytes of a string (the encode call in kosha_client.py line 66). -/
def utf8Bytes (s : String) : List Nat :=
  (s.data.map utf8Char).flatten

/-! ### SHA-256 (hashlib.sha256), over Nat with explicit mod 2^32 -/

/-- Truncation to a 32-bit word. -/
def w32 (n : Nat) : Nat := n % 4294967296

/-- 32-bit right rotation. -/
def rotr (n x : Nat) : Nat := w32 ((x >>> n) ||| (x <<< (32 - n)))

def shaCh (x y z : Nat) : Nat := (x &&& y) ^^^ ((4294967295 - x) &&& z)

def shaMaj (x y z : Nat) : Nat := (x &&& y) ^^^ (x &&& z) ^^^ (y &&& z)

def bigSigma0 (x : Nat) : Nat := rotr 2 x ^^^ rotr 13 x ^^^ rotr 22 x

def bigSigma1 (x : Nat) : Nat := rotr 6 x ^^^ rotr 11 x ^^^ rotr 25 x

def smallSigma0 (x : Nat) : Nat := rotr 7 x ^^^ rotr 18 x ^^^ (x >>> 3)

def smallSigma1 (x : Nat) : Nat := rotr 17 x ^^^ rotr 19 x ^^^ (x >>> 10)

/-- SHA-256 round constants (FIPS 180-4, written in decimal). -/
def K256 : List Nat :=
  [1116352408, 1899447441, 3049323471, 3921009573, 961987163, 1508970993,
   2453635748, 2870763221, 3624381080, 310598401, 607225278, 1426881987,
   1925078388, 2162078206, 2614888103, 3248222580, 3835390401, 4022224774,
   264347078, 604807628, 770255983, 1249150122, 1555081692, 1996064986,
   2554220882, 2821834349, 2952996808, 3210313671, 3336571891, 3584528711,
   113926993, 338241895, 666307205, 773529912, 1294757372, 1396182291,
   1695183700, 1986661051, 2177026350, 2456956037, 2730485921, 2820302411,
   3259730800, 3345764771, 3516065817, 3600352804, 4094571909, 275423344,
   430227734, 506948616, 659060556, 883997877, 958139571, 1322822218,
   1537002063, 1747873779, 1955562222, 2024104815, 2227730452, 2361852424,
   2428436474, 2756734187, 3204031479, 3329325298]

/-- Four bytes big-endian to one 32-bit word, over a whole block. -/
def bytesToWords : List Nat → List Nat
  | b0 :: b1 :: b2 :: b3 :: rest =>
      (((b0 * 256 + b1) * 256 + b2) * 256 + b3) :: bytesToWords rest
  | _ => []

/-- One message-schedule extension step of SHA-256: the next word is
sigma1 of the word 2 back, plus the word 7 back, plus sigma0 of the word
15 back, plus the word 16 back, mod 2^32. -/
def scheduleStep (w : List Nat) : List Nat :=
  w ++ [w32 (smallSigma1 (w.getD (w.length - 2) 0) + w.getD (w.length - 7) 0 +
             smallSigma0 (w.getD (w.length - 15) 0) + w.getD (w.length - 16) 0)]

/-- Iterate the schedule extension. -/
def extendSchedule : List Nat → Nat → List Nat
  | w, 0 => w
  | w, n + 1 => extendSchedule (scheduleStep w) n

/-- The eight 32-bit working registers of SHA-256. -/
structure Hash8 where
  a : Nat
  b : Nat
  c : Nat
  d : Nat
  e : Nat
  f : Nat
  g : Nat
  h : Nat

/-- One compression round. -/
def compressStep (st : Hash8) (kw : Nat × Nat) : Hash8 :=
  let t1 := w32 (st.h + bigSigma1 st.e + shaCh st.e st.f st.g + kw.1 + kw.2)
  let t2 := w32 (bigSigma0 st.a + shaMaj st.a st.b st.c)
  ⟨w32 (t1 + t2), st.a, st.b, st.c, w32 (st.d + t1), st.e, st.f, st.g⟩

/-- Process one 64-byte block. -/
def processBlock (hs : Hash8) (block : List Nat) : Hash8 :=
  let w := extendSchedule (bytesToWords block) 48
  let st := (K256.zip w).foldl compressStep hs
  ⟨w32 (hs.a + st.a), w32 (hs.b + st.b), w32 (hs.c + st.c), w32 (hs.d + st.d),
   w32 (hs.e + st.e), w32 (hs.f + st.f), w32 (hs.g + st.g), w32 (hs.h + st.h)⟩

/-- Big-endian bytes of a 64-bit length field. -/
def lenBytes8 (n : Nat) : List Nat :=
  [n >>> 56 % 256, n >>> 48 % 256, n >>> 40 % 256, n >>> 32 % 256,
   n >>> 24 % 256, n >>> 16 % 256, n >>> 8 % 256, n % 256]

/-- SHA-256 padding: a 0x80 byte, zeros to 56 mod 64, then the bit length. -/
def sha256Pad (msg : List Nat) : List Nat :=
  msg ++ [128] ++ List.replicate ((119 - msg.length % 64) % 64) 0 ++
    lenBytes8 (8 * msg.length)

/-- Split into 64-byte blocks. -/
def blocks64 (l : List Nat) : List (List Nat) :=
  if h : l = [] then [] else l.take 64 :: blocks64 (l.drop 64)
termination_by l.length
decreasing_by
  simp
  exact List.length_pos.mpr h

/-- SHA-256 initial hash value (FIPS 180-4, written in decimal). -/
def sha256Init : Hash8 :=
  ⟨1779033703, 3144134277, 1013904242, 2773480762,
   1359893119, 2600822924, 528734635, 1541459225⟩

/-- Word to 4 big-endian bytes. -/
def wordBytes (n : Nat) : List Nat :=
  [n >>> 24 % 256, n >>> 16 % 256, n >>> 8 % 256, n % 256]

/-- SHA-256 digest bytes of a byte message. -/
def sha256Bytes (msg : List Nat) : List Nat :=
  let fin := (blocks64 (sha256Pad msg)).foldl processBlock sha256Init
  wordBytes fin.a ++ wordBytes fin.b ++ wordBytes fin.c ++ wordBytes fin.d ++
    wordBytes fin.e ++ wordBytes fin.f ++ wordBytes fin.g ++ wordBytes fin.h

/-- Lowercase hex string of a byte list (hexdigest). -/
def toHex (bytes : List Nat) : String :=
  String.join (bytes.map fun b => String.mk [hexDigitChar (b / 16 % 16), hexDigitChar (b % 16)])

/-- SHA-256 lowercase hex digest of a byte message. -/
def sha256Hex (msg : List Nat) : String :=
  toHex (sha256Bytes msg)

/-! ### AuditHashValidator (kosha_client.py lines 50-95) -/

/-- Embedding of AuditHashValidator.compute_audit_hash (lines 53-66):
serialize the dict canonically (sorted keys), UTF-8 encode, SHA-256,
lowercase hex digest. -/
def computeAuditHash (data : Dict) : String :=
  sha256Hex (utf8Bytes (serialize (.obj data)))

/-- The expected_data dict reconstructed by validate_result (lines 87-92):
the original transaction overlaid with the result's exception_flag,
reason_code and confidence (a missing result field reads as Python None,
i.e. JSON null). -/
def expectedData (result original : Dict) : Dict :=
  setKey (setKey (setKey original
      "exception_flag" ((getKey result "exception_flag").getD .null))
      "reason_code" ((getKey result "reason_code").getD .null))
      "confidence" ((getKey result "confidence").getD .null)

/-- Embedding of AuditHashValidator.validate_result (lines 68-95): false if
the result has no audit_hash key; otherwise recompute the hash of
expected_data and compare with the declared hash (a Python equality test
between a str and a non-str value is False). -/
def validateResult (result original : Dict) : Bool :=
  if hasKey result "audit_hash" = false then false
  else
    match getKey result "audit_hash" with
    | some (.str h) => computeAuditHash (expectedData result original) == h
    | _ => false

/-- Statement-by-statement state-passing translation of validate_result:
the function only reads its two dict arguments (membership test, get,
subscript, and dict unpacking into a fresh literal), so the translation
returns both arguments unchanged next to the verdict. -/
def validateResultTr (result original : Dict) : Dict × Dict × Bool :=
  if hasKey result "audit_hash" = false then (result, original, false)
  else
    let expected_data := expectedData result original
    let computed_hash := computeAuditHash expected_data
    (result, original,
      match getKey result "audit_hash" with
      | some (.str h) => computed_hash == h
      | _ => false)

/-! ### Python str and repr of JSON-like values, for f-string embedding -/

/-- Escaping of one character inside a Python string repr quoted by q. -/
def pyEsc (q c : Char) : String :=
  if c.toNat = 92 then "\\\\"
  else if c = q then "\\" ++ String.singleton q
  else if c.toNat = 10 then "\\n"
  else if c.toNat = 13 then "\\r"
  else if c.toNat = 9 then "\\t"
  else String.singleton c

/-- Python repr of a string: single-quoted unless the string contains a
single quote (code 39) and no double quote (code 34). -/
def pyReprStr (s : String) : String :=
  if s.data.contains (Char.ofNat 39) && !(s.data.contains (Char.ofNat 34)) then
    String.singleton (Char.ofNat 34)
      ++ String.join (s.data.map (pyEsc (Char.ofNat 34)))
      ++ String.singleton (Char.ofNat 34)
  else
    String.singleton (Char.ofNat 39)
      ++ String.join (s.data.map (pyEsc (Char.ofNat 39)))
      ++ String.singleton (Char.ofNat 39)

mutual

/-- Python repr of a JSON-like value (containers in insertion order,
strings quoted). -/
def pyRepr : JsonValue → String
  | .null => "None"
  | .bool b => if b then "True" else "False"
  | .num n => toString n
  | .str s => pyReprStr s
  | .arr xs => "[" ++ String.intercalate ", " (pyReprItems xs) ++ "]"
  | .obj kvs => "\x7b" ++ String.intercalate ", " (pyReprEntries kvs) ++ "\x7d"
termination_by v => sizeOf v
decreasing_by
  all_goals simp_wf
  all_goals first
    | omega
    | (simp; omega)

/-- Python repr of the elements of a list. -/
def pyReprItems : List JsonValue → List String
  | [] => []
  | x :: xs => pyRepr x :: pyReprItems xs
termination_by l => sizeOf l
decreasing_by
  all_goals simp_wf
  all_goals first
    | omega
    | (simp; omega)

/-- Python repr of the entries of a dict. -/
def pyReprEntries : List (String × JsonValue) → List String
  | [] => []
  | (k, v) :: rest => (pyReprStr k ++ ": " ++ pyRepr v) :: pyReprEntries rest
termination_by l => sizeOf l
decreasing_by
  all_goals simp_wf
  all_goals first
    | omega
    | (simp; omega)

end

/-- Python str of a JSON-like value: the string itself for a str, repr
otherwise — the conversion an f-string applies. -/
def pyStr : JsonValue → String
  | .str s => s
  | v => pyRepr v

/-! ### BatchProcessor (kosha_client.py lines 98-269) -/

/-- The Python exceptions the batch pipeline can raise.  (process_all
catches every Exception and records its string form.) -/
inductive PyError where
  | requestException (msg : String)
  | keyError (key : String)
  | typeError
  | attributeError
  | jsonDecodeError

/-- The string form of a raised exception.  RequestException carries
exactly the message it was constructed with and KeyError the repr of the
missing key; the remaining texts stand in for CPython's type-specific
wording, which no theorem relies on. -/
def pyErrStr : PyError → String
  | .requestException msg => msg
  | .keyError k => pyReprStr k
  | .typeError => "string indices must be integers"
  | .attributeError => "no attribute get"
  | .jsonDecodeError => "Expecting value: line 1 column 1 (char 0)"

/-- An HTTP response as process_batch inspects it: the status code and the
parsed JSON body, none standing for an empty response text (a non-empty
body that is not valid JSON is outside this model). -/
structure HttpResponse where
  status : Nat
  body : Option JsonValue

/-- The TransactionResult dataclass (lines 23-34).  Field values come from
untyped JSON, so they are JsonValues, as in Python where the dataclass
annotations are not enforced. -/
structure TransactionResult where
  transaction_id : JsonValue
  audit_hash : JsonValue
  exception_flag : JsonValue
  reason_code : JsonValue
  confidence : JsonValue
  explainability_features : JsonValue
  request_timestamp : String
  response_timestamp : String

/-- The BatchResult dataclass (lines 37-47). -/
structure BatchResult where
  batch_id : Nat
  total_transactions : Nat
  successful : Nat
  failed : Nat
  results : List TransactionResult
  duration_seconds : ℚ
  throughput : ℚ

/-- The batch-size cap enforced in the BatchProcessor constructor
(line 120): min of the configured size and 5000. -/
def effectiveBatchSize (batch_size : Nat) : Nat :=
  min batch_size 5000

/-- The throughput expression used at lines 200 and 267: count divided by
duration when the duration is positive, else 0. -/
def throughputOf (count : Nat) (elapsed : ℚ) : ℚ :=
  if 0 < elapsed then (count : ℚ) / elapsed else 0

/-- Python subscript with a string key: a dict lookup (KeyError when
missing), a TypeError on any non-dict. -/
def indexJson : JsonValue → String → Except PyError JsonValue
  | .obj kvs, k =>
      match getKey kvs k with
      | some v => .ok v
      | none => .error (.keyError k)
  | _, _ => .error .typeError

/-- Python iteration over a JSON value, as consumed by the zip of
transactions with the parsed body (line 179): a list yields its elements,
a dict its keys, a string its characters; scalars raise TypeError. -/
def jsonIter : JsonValue → Except PyError (List JsonValue)
  | .arr xs => .ok xs
  | .obj kvs => .ok (kvs.map fun kv => .str kv.1)
  | .str s => .ok (s.data.map fun c => .str (String.singleton c))
  | _ => .error .typeError

/-- The explainability_features read with default empty dict (line 187);
only evaluated after the subscript accesses succeeded, hence on a dict. -/
def explOf : JsonValue → JsonValue
  | .obj kvs => (getKey kvs "explainability_features").getD (.obj [])
  | _ => .obj []

/-- The result-building loop of process_batch (lines 179-191): enumerate
the zip of transactions and parsed results, appending a TransactionResult
per pair; a missing key or non-dict entry raises out of the whole
function. -/
def buildResults (bid : Nat) (rq rs : String) :
    Nat → List (Dict × JsonValue) → Except PyError (List TransactionResult)
  | _, [] => .ok []
  | i, (txn, r) :: rest =>
    let tid := (getKey txn "transaction_id").getD
        (.str ("txn_" ++ toString bid ++ "_" ++ toString i))
    match indexJson r "audit_hash" with
    | .error e => .error e
    | .ok ah =>
      match indexJson r "exception_flag" with
      | .error e => .error e
      | .ok ef =>
        match indexJson r "reason_code" with
        | .error e => .error e
        | .ok rc =>
          match indexJson r "confidence" with
          | .error e => .error e
          | .ok cf =>
            match buildResults bid rq rs (i + 1) rest with
            | .error e => .error e
            | .ok tl => .ok (⟨tid, ah, ef, rc, cf, explOf r, rq, rs⟩ :: tl)

/-- The error_detail computation of the non-200 branch (lines 167-171):
the detail field of the parsed body with default "Unknown error" when the
response text is non-empty, "No response" otherwise; the get call on a
parsed body that is not a dict raises AttributeError. -/
def errDetail : Option JsonValue → Except PyError JsonValue
  | none => .ok (.str "No response")
  | some (.obj kvs) => .ok ((getKey kvs "detail").getD (.str "Unknown error"))
  | some _ => .error .attributeError

/-- The message of the RequestException raised at lines 172-174, the
f-string interpolating batch id, status code and error detail. -/
def batchErrMsg (bid status : Nat) (detail : JsonValue) : String :=
  "Batch " ++ toString bid ++ " failed with status " ++ toString status
    ++ ": " ++ pyStr detail

/-- Embedding of BatchProcessor.process_batch (lines 137-201).  The HTTP
response, the elapsed wall time and the two timestamps are environment
inputs; raised exceptions are Except errors. -/
def processBatch (transactions : List Dict) (batch_id : Nat)
    (resp : HttpResponse) (duration : ℚ) (rq rs : String) :
    Except PyError BatchResult :=
  if resp.status ≠ 200 then
    match errDetail resp.body with
    | .error e => .error e
    | .ok d => .error (.requestException (batchErrMsg batch_id resp.status d))
  else
    match resp.body with
    | none => .error .jsonDecodeError
    | some v =>
      match jsonIter v with
      | .error e => .error e
      | .ok elems =>
        match buildResults batch_id rq rs 0 (transactions.zip elems) with
        | .error e => .error e
        | .ok results =>
          .ok { batch_id := batch_id,
                total_transactions := transactions.length,
                successful := results.length,
                failed := 0,
                results := results,
                duration_seconds := duration,
                throughput := throughputOf transactions.length duration }

/-- Environment of one process_all run: per-batch-id HTTP response,
elapsed time and timestamps, plus the run's total wall time. -/
structure RunEnv where
  resp : Nat → HttpResponse
  dur : Nat → ℚ
  reqTs : Nat → String
  respTs : Nat → String
  totalTime : ℚ

/-- The batch slice taken at offset i (line 224). -/
def chunkOf (txns : List Dict) (B i : Nat) : List Dict :=
  (txns.drop i).take B

/-- The loop offsets of process_all (line 222): range from 0 to the total
in steps of the batch size, here for a positive step. -/
def chunkStarts (total B : Nat) : List Nat :=
  List.range' 0 ((total + B - 1) / B) B

/-- The invalid_hashes accumulation of the optional validation pass
(lines 232-244). -/
def invalidHashes (batch : List Dict) :
    Nat → List TransactionResult → List JsonValue
  | _, [] => []
  | j, r :: rest =>
    let rd : Dict := [("audit_hash", r.audit_hash),
                      ("exception_flag", r.exception_flag),
                      ("reason_code", r.reason_code),
                      ("confidence", r.confidence)]
    if validateResult rd (batch.getD j []) then invalidHashes batch (j + 1) rest
    else r.transaction_id :: invalidHashes batch (j + 1) rest

/-- Mutable state of the process_all loop, plus the observable traces:
progress-callback invocations, warning prints, and the chunks handed to
process_batch. -/
structure RunAcc where
  results : List TransactionResult
  failedBatches : List (Nat × String)
  progress : List (Nat × Nat)
  warnings : List (Nat × Nat)
  submitted : List (List Dict)

/-- One iteration of the process_all loop (lines 222-257): slice the
batch, call process_batch; on success extend the results, optionally
validate hashes (warning print only), and invoke the progress callback
with the pair of the position after this batch and the total; on any
exception append the batch id and the exception text to the failed-batches
list. -/
def processAllStep (B : Nat) (hasCb validate : Bool) (e : RunEnv)
    (txns : List Dict) (acc : RunAcc) (i : Nat) : RunAcc :=
  let batch_id := i / B + 1
  let batch := chunkOf txns B i
  match processBatch batch batch_id (e.resp batch_id) (e.dur batch_id)
      (e.reqTs batch_id) (e.respTs batch_id) with
  | .ok br =>
    { results := acc.results ++ br.results,
      failedBatches := acc.failedBatches,
      progress := acc.progress ++
        (if hasCb then [(i + batch.length, txns.length)] else []),
      warnings := acc.warnings ++
        (if validate then
          (if (invalidHashes batch 0 br.results).length ≠ 0 then
            [(batch_id, (invalidHashes batch 0 br.results).length)] else [])
         else []),
      submitted := acc.submitted ++ [batch] }
  | .error err =>
    { results := acc.results,
      failedBatches := acc.failedBatches ++ [(batch_id, pyErrStr err)],
      progress := acc.progress,
      warnings := acc.warnings,
      submitted := acc.submitted ++ [batch] }

/-- The summary dictionary process_all returns (lines 261-269). -/
structure Summary where
  total_transactions : Nat
  successful : Nat
  failed : Int
  failed_batches : List (Nat × String)
  total_time : ℚ
  throughput : ℚ
  results : List TransactionResult

/-- Return value of the embedded process_all: the summary plus the
observable traces of the run. -/
structure RunOutput where
  summary : Summary
  progressCalls : List (Nat × Nat)
  warnings : List (Nat × Nat)
  submitted : List (List Dict)

/-- Embedding of BatchProcessor.process_all (lines 203-269), with the
constructor's batch-size cap (line 120) applied to the configured size.
hasCb is whether a progress callback was supplied. -/
def processAll (batch_size : Nat) (hasCb validate_audit_hash : Bool)
    (e : RunEnv) (transactions : List Dict) : RunOutput :=
  let total := transactions.length
  let B := effectiveBatchSize batch_size
  let acc := (chunkStarts total B).foldl
    (processAllStep B hasCb validate_audit_hash e transactions) ⟨[], [], [], [], []⟩
  { summary := { total_transactions := total,
                 successful := acc.results.length,
                 failed := (total : Int) - acc.results.length,
                 failed_batches := acc.failedBatches,
                 total_time := e.totalTime,
                 throughput := throughputOf total e.totalTime,
                 results := acc.results },
    progressCalls := acc.progress,
    warnings := acc.warnings,
    submitted := acc.submitted }

/-- Whether the batch starting at offset i succeeds in the given
environment (the try of lines 226-254 takes its except branch iff
process_batch raises). -/
def batchOk (B : Nat) (e : RunEnv) (txns : List Dict) (i : Nat) : Bool :=
  (processBatch (chunkOf txns B i) (i / B + 1) (e.resp (i / B + 1))
    (e.dur (i / B + 1)) (e.reqTs (i / B + 1)) (e.respTs (i / B + 1))).isOk

/-- A result object carries the four keys process_batch subscripts
(lines 183-186). -/
def resultHasKeys (r : JsonValue) : Bool :=
  match r with
  | .obj kvs => hasKey kvs "audit_hash" && hasKey kvs "exception_flag" &&
      hasKey kvs "reason_code" && hasKey kvs "confidence"
  | _ => false

/-- The error_detail value of a well-formed error response: "No response"
for an empty body, otherwise the body's detail field with default
"Unknown error" (lines 167-171). -/
def errDetailVal (body : Option JsonValue) : JsonValue :=
  match body with
  | none => .str "No response"
  | some (.obj kvs) => (getKey kvs "detail").getD (.str "Unknown error")
  | some _ => .null

/-- The response shapes under which the C5 dichotomy holds: a 200 response
must carry an array whose entries (those zipped against a transaction)
have the four result keys; a non-200 response must have an empty or
JSON-object body. -/
def goodResponse (resp : HttpResponse) (txns : List Dict) : Prop :=
  if resp.status = 200 then
    ∃ rs, resp.body = some (.arr rs) ∧ ∀ p ∈ txns.zip rs, resultHasKeys p.2 = true
  else
    (resp.body = none ∨ ∃ kvs, resp.body = some (.obj kvs))

/-! ### Concrete inputs used by witnesses and the C4 scenario -/

/-- Witness transaction for the C3 round trip. -/
def c3OriginalW : Dict := [("a", JsonValue.num 1)]

/-- The overlay fields of the C3 witness result. -/
def c3ResultBaseW : Dict :=
  [("exception_flag", JsonValue.bool false), ("reason_code", JsonValue.str "rc"),
   ("confidence", JsonValue.num 1)]

/-- The C3 witness result: its audit_hash is the recomputed hash. -/
def c3ResultW : Dict :=
  ("audit_hash", JsonValue.str (computeAuditHash (expectedData c3ResultBaseW c3OriginalW)))
    :: c3ResultBaseW

/-- Environment for the C1 witness: every batch succeeds. -/
def c1EnvW : RunEnv :=
  ⟨fun _ => ⟨200, some (.arr [])⟩, fun _ => 1, fun _ => "", fun _ => "", 1⟩

/-- Environment for the C2 counterexample: every batch fails with 500. -/
def c2CexEnv : RunEnv :=
  ⟨fun _ => ⟨500, none⟩, fun _ => 1, fun _ => "", fun _ => "", 1⟩

/-- A well-formed single result object. -/
def c2OkRes : JsonValue :=
  .obj [("audit_hash", .str "h"), ("exception_flag", .bool false),
        ("reason_code", .str "ok"), ("confidence", .num 1)]

/-- Environment for the C2 witness: every batch succeeds with one result. -/
def c2EnvW : RunEnv :=
  ⟨fun _ => ⟨200, some (.arr [c2OkRes])⟩, fun _ => 1, fun _ => "", fun _ => "", 1⟩

/-- Environment for the C7 witness. -/
def c7EnvW : RunEnv :=
  ⟨fun _ => ⟨200, some (.arr [])⟩, fun _ => 1, fun _ => "", fun _ => "", 1⟩

/-- The batch result of the C7 witness run. -/
def c7BrW : BatchResult :=
  { batch_id := 1, total_transactions := 0, successful := 0, failed := 0,
    results := [], duration_seconds := 2, throughput := throughputOf 0 2 }

/-- A well-formed result object for the C10 witness. -/
def c10Res : JsonValue :=
  .obj [("audit_hash", .str "h"), ("exception_flag", .bool false),
        ("reason_code", .str "r"), ("confidence", .num 1)]

/-- Environment for the C10 witness. -/
def c10EnvW : RunEnv :=
  ⟨fun _ => ⟨200, some (.arr [c10Res])⟩, fun _ => 1, fun _ => "", fun _ => "", 1⟩

/-- The transaction of the C4 scenario. -/
def c4Txn : Dict := [("transaction_id", JsonValue.str "t")]

/-- The per-transaction server result of the C4 scenario. -/
def c4Res : JsonValue :=
  .obj [("audit_hash", .str "h"), ("exception_flag", .bool false),
        ("reason_code", .str "ok"), ("confidence", .num 1)]

/-- The 2500 transactions of the C4 scenario. -/
def c4Txns : List Dict := List.replicate 2500 c4Txn

/-- Environment of the C4 scenario: batch 2 gets a 500 with detail "boom",
batches 1 and 3 get 200 with full-length result arrays; timestamps encode
the batch id so that result ordering is observable. -/
def c4Env : RunEnv :=
  { resp := fun bid =>
      if bid = 2 then ⟨500, some (.obj [("detail", .str "boom")])⟩
      else if bid = 3 then ⟨200, some (.arr (List.replicate 500 c4Res))⟩
      else ⟨200, some (.arr (List.replicate 1000 c4Res))⟩,
    dur := fun _ => 1,
    reqTs := fun bid => "rq" ++ toString bid,
    respTs := fun bid => "rs" ++ toString bid,
    totalTime := 1 }

/-- The per-transaction result produced in a given batch of the C4
scenario. -/
def c4TRes (bid : Nat) : TransactionResult :=
  ⟨.str "t", .str "h", .bool false, .str "ok", .num 1, .obj [],
   "rq" ++ toString bid, "rs" ++ toString bid⟩

/-! ### Key-order independence of the canonical serialization -/

theorem eq_of_perm_sorted_nodupKeys :
    ∀ {l1 : Dict}, ∀ {l2 : Dict}, List.Perm l1 l2 → List.Sorted entryLe l1 →
      List.Sorted entryLe l2 → (l1.map Prod.fst).Nodup → l1 = l2 := by
  intro l1
  induction l1 with
  | nil =>
    intro l2 hp _ _ _
    exact (hp.symm.eq_nil).symm
  | cons a t1 ih =>
    intro l2 hp hs1 hs2 hnd
    cases l2 with
    | nil => exact (List.cons_ne_nil a t1 hp.eq_nil).elim
    | cons b t2 =>
      have hab : a = b := by
        have hamem : a ∈ b :: t2 := hp.mem_iff.mp (List.mem_cons_self a t1)
        rcases List.mem_cons.mp hamem with h1 | h1
        · exact h1
        · have hba : entryLe b a := List.rel_of_sorted_cons hs2 a h1
          have hbmem : b ∈ a :: t1 := hp.symm.mem_iff.mp (List.mem_cons_self b t2)
          rcases List.mem_cons.mp hbmem with h2 | h2
          · exact h2.symm
          · have hab2 : entryLe a b := List.rel_of_sorted_cons hs1 b h2
            exfalso
            have hkey : a.1 = b.1 := le_antisymm hab2 hba
            have hmem : a.1 ∈ t1.map Prod.fst := by
              rw [hkey]
              exact List.mem_map_of_mem Prod.fst h2
            rw [List.map_cons] at hnd
            exact (List.nodup_cons.mp hnd).1 hmem
      subst hab
      have hnd2 : (t1.map Prod.fst).Nodup := by
        rw [List.map_cons] at hnd
        exact (List.nodup_cons.mp hnd).2
      rw [ih hp.cons_inv hs1.of_cons hs2.of_cons hnd2]

theorem sortedEntries_eq_of_perm {d1 d2 : Dict} (h : List.Perm d1 d2)
    (hnd : (d1.map Prod.fst).Nodup) : sortedEntries d1 = sortedEntries d2 := by
  refine eq_of_perm_sorted_nodupKeys
    ((sortedEntries_perm d1).trans (h.trans (sortedEntries_perm d2).symm))
    (List.sorted_insertionSort entryLe d1)
    (List.sorted_insertionSort entryLe d2) ?_
  exact ((sortedEntries_perm d1).map Prod.fst).nodup_iff.mpr hnd

theorem serialize_obj_congr {d1 d2 : Dict} (h : sortedEntries d1 = sortedEntries d2) :
    serialize (.obj d1) = serialize (.obj d2) := by
  simp only [serialize]
  rw [h]

/-- Claim C6: compute_audit_hash is independent of dict insertion order:
any two dicts holding the same key-value pairs (a permutation of one
another, keys distinct as in any Python dict) hash identically, because
serialization sorts the keys (kosha_client.py line 65). -/
theorem compute_audit_hash_key_order_independent (d1 d2 : Dict)
    (hperm : List.Perm d1 d2) (hnd : (d1.map Prod.fst).Nodup) :
    computeAuditHash d1 = computeAuditHash d2 := by
  unfold computeAuditHash
  rw [serialize_obj_congr (sortedEntries_eq_of_perm hperm hnd)]

/-- Witness for C6, the spec's concrete scenario: the dicts mapping a to 1
and b to 2 in either insertion order hash identically. -/
theorem compute_audit_hash_key_order_independent_witness :
    List.Perm [("a", JsonValue.num 1), ("b", JsonValue.num 2)]
      [("b", JsonValue.num 2), ("a", JsonValue.num 1)]
    ∧ ([("a", JsonValue.num 1), ("b", JsonValue.num 2)].map Prod.fst).Nodup
    ∧ computeAuditHash [("a", JsonValue.num 1), ("b", JsonValue.num 2)]
        = computeAuditHash [("b", JsonValue.num 2), ("a", JsonValue.num 1)] :=
  ⟨List.Perm.swap ("b", JsonValue.num 2) ("a", JsonValue.num 1) [],
   by decide,
   compute_audit_hash_key_order_independent _ _
     (List.Perm.swap ("b", JsonValue.num 2) ("a", JsonValue.num 1) []) (by decide)⟩

/-! ### Validator round trip and error behaviour -/

/-- Claim C3: round-trip law between compute_audit_hash and
validate_result (kosha_client.py lines 53-95): if the result's audit_hash
field is the hash of the original transaction overlaid with the result's
exception_flag, reason_code and confidence (expected_data, lines 87-92),
then validate_result returns true.  In this embedding dict values are
represented exactly, so the spec's serialization round-trip proviso is
automatic. -/
theorem validate_result_round_trip (original result : Dict)
    (h : getKey result "audit_hash"
          = some (.str (computeAuditHash (expectedData result original)))) :
    validateResult result original = true := by
  unfold validateResult hasKey
  rw [h]
  simp

/-- Witness for C3 at a concrete transaction and result. -/
theorem validate_result_round_trip_witness :
    getKey c3ResultW "audit_hash"
      = some (.str (computeAuditHash (expectedData c3ResultW c3OriginalW)))
    ∧ validateResult c3ResultW c3OriginalW = true :=
  ⟨rfl, validate_result_round_trip c3OriginalW c3ResultW rfl⟩

/-- Claim C8: a result with no audit_hash key makes validate_result return
false (kosha_client.py lines 82-83); as a total Lean function the
embedding returns a boolean verdict on every input, so it never raises. -/
theorem validate_result_no_hash_false (result original : Dict)
    (h : hasKey result "audit_hash" = false) :
    validateResult result original = false := by
  unfold validateResult
  rw [h]
  simp

/-- Witness for C8: an empty result dict. -/
theorem validate_result_no_hash_false_witness :
    hasKey ([] : Dict) "audit_hash" = false
    ∧ validateResult [] [("x", JsonValue.null)] = false :=
  ⟨rfl, validate_result_no_hash_false [] [("x", JsonValue.null)] rfl⟩

/-- Claim C9: validate_result never mutates its arguments (kosha_client.py
lines 85-95): its state-passing translation returns both dicts unchanged
(the reconstructed expected_data is a fresh object) and agrees with the
pure verdict. -/
theorem validate_result_pure (result original : Dict) :
    (validateResultTr result original).1 = result
    ∧ (validateResultTr result original).2.1 = original
    ∧ (validateResultTr result original).2.2 = validateResult result original := by
  unfold validateResultTr validateResult
  by_cases h : hasKey result "audit_hash" = false <;> simp [h]

/-! ### The chunking of process_all (claim C1) -/

theorem processAllStep_submitted (B : Nat) (cb val : Bool) (e : RunEnv)
    (txns : List Dict) (acc : RunAcc) (i : Nat) :
    (processAllStep B cb val e txns acc i).submitted
      = acc.submitted ++ [chunkOf txns B i] := by
  unfold processAllStep
  dsimp only
  cases h : processBatch (chunkOf txns B i) (i / B + 1) (e.resp (i / B + 1))
      (e.dur (i / B + 1)) (e.reqTs (i / B + 1)) (e.respTs (i / B + 1)) <;> rfl

theorem processAllStep_progress (B : Nat) (cb val : Bool) (e : RunEnv)
    (txns : List Dict) (acc : RunAcc) (i : Nat) :
    (processAllStep B cb val e txns acc i).progress
      = acc.progress ++
          (if batchOk B e txns i && cb then
            [(i + (chunkOf txns B i).length, txns.length)] else []) := by
  unfold processAllStep batchOk
  dsimp only
  cases h : processBatch (chunkOf txns B i) (i / B + 1) (e.resp (i / B + 1))
      (e.dur (i / B + 1)) (e.reqTs (i / B + 1)) (e.respTs (i / B + 1)) with
  | ok br => simp [Except.isOk, Except.toBool]
  | error err => simp [Except.isOk, Except.toBool]

theorem foldl_step_submitted (B : Nat) (cb val : Bool) (e : RunEnv)
    (txns : List Dict) :
    ∀ (starts : List Nat) (acc : RunAcc),
      ((starts.foldl (processAllStep B cb val e txns) acc).submitted
        = acc.submitted ++ starts.map (chunkOf txns B)) := by
  intro starts
  induction starts with
  | nil => intro acc; simp
  | cons s rest ih =>
    intro acc
    rw [List.foldl_cons, ih, List.map_cons, processAllStep_submitted]
    simp

theorem foldl_step_progress (B : Nat) (val : Bool) (e : RunEnv)
    (txns : List Dict) :
    ∀ (starts : List Nat) (acc : RunAcc),
      ((starts.foldl (processAllStep B true val e txns) acc).progress
        = acc.progress ++ (starts.filter (batchOk B e txns)).map
            (fun i => (i + (chunkOf txns B i).length, txns.length))) := by
  intro starts
  induction starts with
  | nil => intro acc; simp
  | cons s rest ih =>
    intro acc
    rw [List.foldl_cons, ih, List.filter_cons, processAllStep_progress]
    cases hok : batchOk B e txns s <;> simp [hok]

theorem le_ceil_mul (B N : Nat) (hB : 0 < B) : N ≤ ((N + B - 1) / B) * B := by
  have h1 := Nat.div_add_mod (N + B - 1) B
  have h2 : (N + B - 1) % B < B := Nat.mod_lt _ hB
  have h3 : B * ((N + B - 1) / B) = ((N + B - 1) / B) * B := Nat.mul_comm _ _
  rw [h3] at h1
  generalize ((N + B - 1) / B) * B = p at h1 ⊢
  omega

theorem flatten_chunks_aux {α : Type} (B : Nat) :
    ∀ (m s : Nat) (l : List α),
      ((List.range' s m B).map (fun i => (l.drop i).take B)).flatten
        = (l.drop s).take (m * B) := by
  intro m
  induction m with
  | zero => intro s l; simp
  | succ m ih =>
    intro s l
    rw [List.range'_succ, List.map_cons, List.flatten_cons, ih (s + B) l]
    rw [show (m + 1) * B = B + m * B by ring, List.take_add, List.drop_drop]

theorem chunkList_flatten (txns : List Dict) (B : Nat) (hB : 0 < B) :
    ((chunkStarts txns.length B).map (chunkOf txns B)).flatten = txns := by
  unfold chunkStarts chunkOf
  rw [flatten_chunks_aux B _ 0 txns, List.drop_zero,
    List.take_of_length_le (le_ceil_mul B txns.length hB)]

theorem chunkList_getD (txns : List Dict) (B : Nat) (k : Nat)
    (hk : k < (txns.length + B - 1) / B) :
    ((chunkStarts txns.length B).map (chunkOf txns B)).getD k []
      = (txns.drop (k * B)).take B := by
  have hlt : k < ((chunkStarts txns.length B).map (chunkOf txns B)).length := by
    simpa [chunkStarts] using hk
  rw [List.getD_eq_getElem?_getD, List.getElem?_eq_getElem hlt]
  simp [chunkStarts, chunkOf, Nat.mul_comm]

/-- Claim C1: process_all (kosha_client.py lines 222-228) submits exactly
ceil(N/B) chunks to process_batch, where B is the configured batch size
capped at 5000 (line 120) and N the input length; each chunk has at most B
transactions, chunk k is the slice from k*B to (k+1)*B exclusive, and the
chunks concatenate back to the input — a gapless, overlap-free,
order-preserving partition. -/
theorem process_all_chunking (batch_size : Nat) (hasCb validate : Bool)
    (e : RunEnv) (txns : List Dict) (B : Nat)
    (hB : B = effectiveBatchSize batch_size) (hbs : 1 ≤ batch_size) :
    (processAll batch_size hasCb validate e txns).submitted
        = (chunkStarts txns.length B).map (chunkOf txns B)
    ∧ ((processAll batch_size hasCb validate e txns).submitted).length
        = (txns.length + B - 1) / B
    ∧ (∀ c ∈ (processAll batch_size hasCb validate e txns).submitted,
        c.length ≤ B)
    ∧ ((processAll batch_size hasCb validate e txns).submitted).flatten = txns
    ∧ (∀ k, k < (txns.length + B - 1) / B →
        ((processAll batch_size hasCb validate e txns).submitted).getD k []
          = (txns.drop (k * B)).take B) := by
  have hBpos : 0 < B := by
    rw [hB]
    unfold effectiveBatchSize
    omega
  have hsub : (processAll batch_size hasCb validate e txns).submitted
      = (chunkStarts txns.length B).map (chunkOf txns B) := by
    unfold processAll
    rw [← hB]
    exact foldl_step_submitted B hasCb validate e txns _ _
  refine ⟨hsub, ?_, ?_, ?_, ?_⟩
  · rw [hsub]
    simp [chunkStarts]
  · intro c hc
    rw [hsub] at hc
    rcases List.mem_map.mp hc with ⟨i, _, rfl⟩
    exact List.length_take_le B _
  · rw [hsub]
    exact chunkList_flatten txns B hBpos
  · intro k hk
    rw [hsub]
    exact chunkList_getD txns B k hk

/-- Witness for C1: three empty transactions, configured batch size 2. -/
theorem process_all_chunking_witness :
    (effectiveBatchSize 2 = effectiveBatchSize 2 ∧ 1 ≤ 2)
    ∧ ((processAll 2 true false c1EnvW [[], [], []]).submitted
        = (chunkStarts ([[], [], []] : List Dict).length (effectiveBatchSize 2)).map
            (chunkOf [[], [], []] (effectiveBatchSize 2))
      ∧ ((processAll 2 true false c1EnvW [[], [], []]).submitted).length
          = (([[], [], []] : List Dict).length + effectiveBatchSize 2 - 1)
              / effectiveBatchSize 2
      ∧ (∀ c ∈ (processAll 2 true false c1EnvW [[], [], []]).submitted,
          c.length ≤ effectiveBatchSize 2)
      ∧ ((processAll 2 true false c1EnvW [[], [], []]).submitted).flatten
          = [[], [], []]
      ∧ (∀ k, k < (([[], [], []] : List Dict).length + effectiveBatchSize 2 - 1)
              / effectiveBatchSize 2 →
          ((processAll 2 true false c1EnvW [[], [], []]).submitted).getD k []
            = (([[], [], []] : List Dict).drop (k * effectiveBatchSize 2)).take
                (effectiveBatchSize 2))) :=
  ⟨⟨rfl, by decide⟩,
   process_all_chunking 2 true false c1EnvW [[], [], []]
     (effectiveBatchSize 2) rfl (by decide)⟩

/-! ### Progress-callback behaviour (claim C2) -/

/-- Counterexample to C2 as stated: the progress callback at lines 252-253
sits inside the try, after process_batch returns, so a failed batch
attempt never invokes it.  One transaction whose single batch fails with
status 500: one batch is attempted (one submission) but the callback is
invoked zero times, not once. -/
theorem process_all_progress_cex :
    (processAll 1000 true false c2CexEnv [[]]).progressCalls = []
    ∧ (processAll 1000 true false c2CexEnv [[]]).submitted.length = 1 :=
  ⟨rfl, rfl⟩

/-- Claim C2 as amended: with a progress callback supplied, process_all
invokes it exactly once per successful batch (failed batches are skipped,
lines 251-257); the invocation for the batch starting at offset i passes
the pair of i plus the batch length and the total N — a cumulative
position count through the end of that batch, monotonically non-decreasing
across invocations — the second component is always N, and when every
batch (in particular the final one) succeeds the final invocation reports
the pair of N and N. -/
theorem process_all_progress_success_only (batch_size : Nat) (validate : Bool)
    (e : RunEnv) (txns : List Dict) (B : Nat)
    (hB : B = effectiveBatchSize batch_size) (hbs : 1 ≤ batch_size) :
    (processAll batch_size true validate e txns).progressCalls
        = ((chunkStarts txns.length B).filter (batchOk B e txns)).map
            (fun i => (i + (chunkOf txns B i).length, txns.length))
    ∧ ((processAll batch_size true validate e txns).progressCalls).Pairwise
        (fun p q => p.1 ≤ q.1)
    ∧ (∀ p ∈ (processAll batch_size true validate e txns).progressCalls,
        p.2 = txns.length)
    ∧ ((0 < txns.length ∧
          ∀ i ∈ chunkStarts txns.length B, batchOk B e txns i = true) →
        ((processAll batch_size true validate e txns).progressCalls).getLast?
          = some (txns.length, txns.length)) := by
  have hBpos : 0 < B := by
    rw [hB]
    unfold effectiveBatchSize
    omega
  have hchar : (processAll batch_size true validate e txns).progressCalls
      = ((chunkStarts txns.length B).filter (batchOk B e txns)).map
          (fun i => (i + (chunkOf txns B i).length, txns.length)) := by
    unfold processAll
    rw [← hB]
    simpa using foldl_step_progress B validate e txns _ _
  refine ⟨hchar, ?_, ?_, ?_⟩
  · rw [hchar]
    apply (List.pairwise_map).mpr
    have hp : List.Pairwise (· < ·) (chunkStarts txns.length B) := by
      unfold chunkStarts
      exact List.pairwise_lt_range' 0 _ B hBpos
    refine (hp.filter (batchOk B e txns)).imp ?_
    intro a b hab
    simp only [chunkOf, List.length_take, List.length_drop]
    omega
  · intro p hp
    rw [hchar] at hp
    rcases List.mem_map.mp hp with ⟨i, _, rfl⟩
    rfl
  · rintro ⟨hN, hall⟩
    rw [hchar, List.filter_eq_self.mpr hall]
    have h7 : 1 ≤ (txns.length + B - 1) / B := by
      rw [Nat.le_div_iff_mul_le hBpos]
      omega
    have hONE : (txns.length + B - 1) / B = ((txns.length + B - 1) / B - 1) + 1 := by
      omega
    unfold chunkStarts
    rw [hONE, List.range'_concat, List.map_append, List.map_cons, List.map_nil,
      List.getLast?_concat]
    have h5 : ((txns.length + B - 1) / B) * B ≤ txns.length + B - 1 :=
      Nat.div_mul_le_self _ _
    have h4 : txns.length ≤ ((txns.length + B - 1) / B) * B :=
      le_ceil_mul B txns.length hBpos
    have h6 : B * ((txns.length + B - 1) / B - 1)
        = ((txns.length + B - 1) / B) * B - B := by
      rw [Nat.mul_comm, Nat.sub_mul, Nat.one_mul]
    simp only [chunkOf, List.length_take, List.length_drop, Nat.zero_add,
      Option.some.injEq, Prod.mk.injEq]
    rw [h6]
    generalize ((txns.length + B - 1) / B) * B = p at h4 h5 ⊢
    constructor
    · omega
    · trivial

/-- Witness for the amended C2: two transactions, batch size 1, both
batches succeeding. -/
theorem process_all_progress_success_only_witness :
    (effectiveBatchSize 1 = effectiveBatchSize 1 ∧ 1 ≤ 1)
    ∧ ((processAll 1 true false c2EnvW [[], []]).progressCalls
        = ((chunkStarts ([[], []] : List Dict).length (effectiveBatchSize 1)).filter
            (batchOk (effectiveBatchSize 1) c2EnvW [[], []])).map
            (fun i => (i + (chunkOf [[], []] (effectiveBatchSize 1) i).length,
              ([[], []] : List Dict).length))
      ∧ ((processAll 1 true false c2EnvW [[], []]).progressCalls).Pairwise
          (fun p q => p.1 ≤ q.1)
      ∧ (∀ p ∈ (processAll 1 true false c2EnvW [[], []]).progressCalls,
          p.2 = ([[], []] : List Dict).length)
      ∧ ((0 < ([[], []] : List Dict).length ∧
            ∀ i ∈ chunkStarts ([[], []] : List Dict).length (effectiveBatchSize 1),
              batchOk (effectiveBatchSize 1) c2EnvW [[], []] i = true) →
          ((processAll 1 true false c2EnvW [[], []]).progressCalls).getLast?
            = some (([[], []] : List Dict).length, ([[], []] : List Dict).length))) :=
  ⟨⟨rfl, le_refl 1⟩,
   process_all_progress_success_only 1 false c2EnvW [[], []]
     (effectiveBatchSize 1) rfl (le_refl 1)⟩

/-! ### Throughput (claim C7) -/

theorem throughputOf_nonneg (c : Nat) (d : ℚ) : 0 ≤ throughputOf c d := by
  unfold throughputOf
  split
  · exact div_nonneg (Nat.cast_nonneg c) (le_of_lt (by assumption))
  · exact le_refl 0

/-- Claim C7: every reported throughput — the throughput field of a
BatchResult (line 200) and of the overall summary (line 267) — is
non-negative, equals count divided by elapsed time when the elapsed time
is positive, and is exactly 0 otherwise; it is computed from count and
elapsed time, never set independently. -/
theorem throughput_derived (txns : List Dict) (bid : Nat) (resp : HttpResponse)
    (dur : ℚ) (rq rt : String) (bs : Nat) (cb val : Bool) (env : RunEnv)
    (allTxns : List Dict) (br : BatchResult)
    (h : processBatch txns bid resp dur rq rt = .ok br) :
    (0 ≤ br.throughput
      ∧ (0 < dur → br.throughput = (txns.length : ℚ) / dur)
      ∧ (dur ≤ 0 → br.throughput = 0))
    ∧ (0 ≤ (processAll bs cb val env allTxns).summary.throughput
      ∧ (0 < env.totalTime →
          (processAll bs cb val env allTxns).summary.throughput
            = (allTxns.length : ℚ) / env.totalTime)
      ∧ (env.totalTime ≤ 0 →
          (processAll bs cb val env allTxns).summary.throughput = 0)) := by
  have hbr : br.throughput = throughputOf txns.length dur := by
    unfold processBatch at h
    split at h
    · split at h <;> exact absurd h (by simp)
    · split at h
      · exact absurd h (by simp)
      · split at h
        · exact absurd h (by simp)
        · split at h
          · exact absurd h (by simp)
          · injection h with h2
            rw [← h2]
  have hsum : (processAll bs cb val env allTxns).summary.throughput
      = throughputOf allTxns.length env.totalTime := rfl
  refine ⟨⟨?_, ?_, ?_⟩, ?_, ?_, ?_⟩
  · rw [hbr]
    exact throughputOf_nonneg _ _
  · intro hd
    rw [hbr]
    unfold throughputOf
    rw [if_pos hd]
  · intro hd
    rw [hbr]
    unfold throughputOf
    rw [if_neg (not_lt.mpr hd)]
  · rw [hsum]
    exact throughputOf_nonneg _ _
  · intro hd
    rw [hsum]
    unfold throughputOf
    rw [if_pos hd]
  · intro hd
    rw [hsum]
    unfold throughputOf
    rw [if_neg (not_lt.mpr hd)]

/-- Witness for C7: an empty batch processed in 2 seconds. -/
theorem throughput_derived_witness :
    processBatch [] 1 ⟨200, some (.arr [])⟩ 2 "" "" = .ok c7BrW
    ∧ ((0 ≤ c7BrW.throughput
        ∧ (0 < (2 : ℚ) → c7BrW.throughput = (([] : List Dict).length : ℚ) / 2)
        ∧ ((2 : ℚ) ≤ 0 → c7BrW.throughput = 0))
      ∧ (0 ≤ (processAll 5 false false c7EnvW []).summary.throughput
        ∧ (0 < c7EnvW.totalTime →
            (processAll 5 false false c7EnvW []).summary.throughput
              = (([] : List Dict).length : ℚ) / c7EnvW.totalTime)
        ∧ (c7EnvW.totalTime ≤ 0 →
            (processAll 5 false false c7EnvW []).summary.throughput = 0))) :=
  ⟨rfl, throughput_derived [] 1 ⟨200, some (.arr [])⟩ 2 "" "" 5 false false
    c7EnvW [] c7BrW rfl⟩

/-! ### Raising behaviour of process_batch (claims C5, C10) -/

theorem getKey_of_hasKey {kvs : Dict} {k : String} (h : hasKey kvs k = true) :
    ∃ v, getKey kvs k = some v := by
  unfold hasKey at h
  cases hg : getKey kvs k with
  | some v => exact ⟨v, rfl⟩
  | none => rw [hg] at h; simp at h

theorem buildResults_ok_length (bid : Nat) (rq rt : String) :
    ∀ (pairs : List (Dict × JsonValue)) (i : Nat),
      (∀ p ∈ pairs, resultHasKeys p.2 = true) →
      ∃ out, buildResults bid rq rt i pairs = .ok out
        ∧ out.length = pairs.length := by
  intro pairs
  induction pairs with
  | nil => intro i _; exact ⟨[], rfl, rfl⟩
  | cons p rest ih =>
    intro i hwf
    obtain ⟨txn, r⟩ := p
    have hr := hwf (txn, r) (List.mem_cons_self _ _)
    cases r with
    | null => simp [resultHasKeys] at hr
    | bool b => simp [resultHasKeys] at hr
    | num n => simp [resultHasKeys] at hr
    | str s => simp [resultHasKeys] at hr
    | arr xs => simp [resultHasKeys] at hr
    | obj kvs =>
      simp only [resultHasKeys, Bool.and_eq_true] at hr
      obtain ⟨⟨⟨h1, h2⟩, h3⟩, h4⟩ := hr
      obtain ⟨v1, hv1⟩ := getKey_of_hasKey h1
      obtain ⟨v2, hv2⟩ := getKey_of_hasKey h2
      obtain ⟨v3, hv3⟩ := getKey_of_hasKey h3
      obtain ⟨v4, hv4⟩ := getKey_of_hasKey h4
      obtain ⟨out, hout, hlen⟩ :=
        ih (i + 1) (fun q hq => hwf q (List.mem_cons_of_mem _ hq))
      refine ⟨(⟨(getKey txn "transaction_id").getD
          (.str ("txn_" ++ toString bid ++ "_" ++ toString i)),
          v1, v2, v3, v4, explOf (.obj kvs), rq, rt⟩ : TransactionResult) :: out,
          ?_, ?_⟩
      · simp only [buildResults, indexJson, hv1, hv2, hv3, hv4, hout]
      · simp [hlen]

/-- Counterexample to C5 as stated: with status 200 but a result object
missing audit_hash, the subscript at line 183 raises KeyError — so a 200
status does not guarantee a normal return. -/
theorem process_batch_raises_iff_cex :
    processBatch [[]] 3 ⟨200, some (.arr [JsonValue.obj []])⟩ 1 "" ""
      = .error (.keyError "audit_hash") := rfl

/-- Claim C5 as amended: for a well-formed response (goodResponse),
process_batch raises iff the status is not 200, and on a non-200 status
the raised RequestException message is exactly the f-string of lines
172-174 interpolating batch id, status code and error detail, with detail
"No response" for an empty body and "Unknown error" when the body provides
no detail field. -/
theorem process_batch_raises_iff (txns : List Dict) (bid : Nat)
    (resp : HttpResponse) (dur : ℚ) (rq rt : String)
    (hgood : goodResponse resp txns) :
    ((processBatch txns bid resp dur rq rt).isOk = true ↔ resp.status = 200)
    ∧ (resp.status ≠ 200 →
        processBatch txns bid resp dur rq rt
          = .error (.requestException
              (batchErrMsg bid resp.status (errDetailVal resp.body)))) := by
  by_cases hst : resp.status = 200
  · unfold goodResponse at hgood
    rw [if_pos hst] at hgood
    obtain ⟨rs, hbody, hwf⟩ := hgood
    obtain ⟨out, hout, _⟩ := buildResults_ok_length bid rq rt (txns.zip rs) 0 hwf
    constructor
    · unfold processBatch
      rw [if_neg (fun hne => hne hst), hbody]
      simp only [jsonIter, hout]
      simp [Except.isOk, Except.toBool, hst]
    · intro hne
      exact absurd hst hne
  · unfold goodResponse at hgood
    rw [if_neg hst] at hgood
    have hdet : errDetail resp.body = .ok (errDetailVal resp.body) := by
      rcases hgood with h | ⟨kvs, h⟩ <;> rw [h] <;> rfl
    constructor
    · unfold processBatch
      rw [if_pos hst, hdet]
      simp [Except.isOk, Except.toBool, hst]
    · intro _
      unfold processBatch
      rw [if_pos hst, hdet]

/-- Witness for the amended C5: a 500 response whose body provides the
detail message "boom". -/
theorem process_batch_raises_iff_witness :
    goodResponse ⟨500, some (.obj [("detail", JsonValue.str "boom")])⟩ [[]]
    ∧ (((processBatch [[]] 9 ⟨500, some (.obj [("detail", JsonValue.str "boom")])⟩
          1 "" "").isOk = true ↔ (500 : Nat) = 200)
      ∧ ((500 : Nat) ≠ 200 →
          processBatch [[]] 9 ⟨500, some (.obj [("detail", JsonValue.str "boom")])⟩
              1 "" ""
            = .error (.requestException
                (batchErrMsg 9 500
                  (errDetailVal (some (.obj [("detail", JsonValue.str "boom")]))))))) := by
  have hg : goodResponse ⟨500, some (.obj [("detail", JsonValue.str "boom")])⟩ [[]] := by
    show some (JsonValue.obj [("detail", JsonValue.str "boom")]) = none
      ∨ ∃ kvs, some (JsonValue.obj [("detail", JsonValue.str "boom")])
          = some (.obj kvs)
    exact Or.inr ⟨_, rfl⟩
  exact ⟨hg, process_batch_raises_iff [[]] 9
    ⟨500, some (.obj [("detail", JsonValue.str "boom")])⟩ 1 "" "" hg⟩

/-! ### Silent truncation on short result arrays (claim C10) -/

/-- Claim C10: when the server answers 200 with a well-formed result array
of length M shorter than the batch, process_batch returns normally: the
zip at line 179 silently truncates, so the BatchResult has exactly M
results, successful equal to M and failed equal to 0; and a process_all
run over that single batch reports no failed batches (the dropped
transactions are not recorded anywhere). -/
theorem process_batch_short_array (txns : List Dict) (rs : List JsonValue)
    (bid : Nat) (dur : ℚ) (rq rt : String) (bs : Nat) (e : RunEnv)
    (hlen : rs.length < txns.length)
    (hwf : ∀ r ∈ rs, resultHasKeys r = true)
    (hB : txns.length ≤ effectiveBatchSize bs)
    (he : e.resp 1 = ⟨200, some (.arr rs)⟩) :
    ((processBatch txns bid ⟨200, some (.arr rs)⟩ dur rq rt).map
        (fun br => (br.results.length, br.successful, br.failed))
      = .ok (rs.length, rs.length, 0))
    ∧ (processAll bs false false e txns).summary.failed_batches = []
    ∧ (processAll bs false false e txns).summary.successful = rs.length := by
  have hzl : (txns.zip rs).length = rs.length := by
    rw [List.length_zip]
    omega
  have hwfz : ∀ p ∈ txns.zip rs, resultHasKeys p.2 = true := by
    intro p hp
    obtain ⟨t, r⟩ := p
    exact hwf r (List.of_mem_zip hp).2
  have hpbGen : ∀ (bid2 : Nat) (dur2 : ℚ) (rq2 rt2 : String),
      ∃ out2, (processBatch txns bid2 ⟨200, some (.arr rs)⟩ dur2 rq2 rt2
        = .ok { batch_id := bid2, total_transactions := txns.length,
                successful := out2.length, failed := 0, results := out2,
                duration_seconds := dur2,
                throughput := throughputOf txns.length dur2 })
        ∧ out2.length = rs.length := by
    intro bid2 dur2 rq2 rt2
    obtain ⟨out2, hout2, holen2⟩ :=
      buildResults_ok_length bid2 rq2 rt2 (txns.zip rs) 0 hwfz
    refine ⟨out2, ?_, by rw [holen2, hzl]⟩
    unfold processBatch
    dsimp only
    rw [if_neg (fun h => h rfl)]
    simp only [jsonIter, hout2]
  have hN : 0 < txns.length := by omega
  have hBpos : 0 < effectiveBatchSize bs := by omega
  have hstarts : chunkStarts txns.length (effectiveBatchSize bs) = [0] := by
    unfold chunkStarts
    have hdiv : (txns.length + effectiveBatchSize bs - 1) / effectiveBatchSize bs
        = 1 := by
      apply Nat.div_eq_of_lt_le <;> omega
    rw [hdiv]
    rfl
  have hchunk : chunkOf txns (effectiveBatchSize bs) 0 = txns := by
    unfold chunkOf
    rw [List.drop_zero, List.take_of_length_le hB]
  obtain ⟨out1, hpb1, holen1⟩ := hpbGen 1 (e.dur 1) (e.reqTs 1) (e.respTs 1)
  obtain ⟨out, hpb, holen⟩ := hpbGen bid dur rq rt
  refine ⟨?_, ?_⟩
  · rw [hpb]
    simp [Except.map, holen]
  · unfold processAll
    dsimp only
    rw [hstarts]
    simp only [List.foldl_cons, List.foldl_nil]
    unfold processAllStep
    dsimp only
    rw [hchunk]
    simp only [Nat.zero_div]
    rw [he, hpb1]
    simp [holen1]

/-- Witness for C10: two transactions, a single well-formed result. -/
theorem process_batch_short_array_witness :
    (([c10Res] : List JsonValue).length < ([[], []] : List Dict).length
      ∧ (∀ r ∈ ([c10Res] : List JsonValue), resultHasKeys r = true)
      ∧ ([[], []] : List Dict).length ≤ effectiveBatchSize 5
      ∧ c10EnvW.resp 1 = ⟨200, some (.arr [c10Res])⟩)
    ∧ (((processBatch [[], []] 7 ⟨200, some (.arr [c10Res])⟩ 1 "" "").map
          (fun br => (br.results.length, br.successful, br.failed))
        = .ok (([c10Res] : List JsonValue).length,
            ([c10Res] : List JsonValue).length, 0))
      ∧ (processAll 5 false false c10EnvW [[], []]).summary.failed_batches = []
      ∧ (processAll 5 false false c10EnvW [[], []]).summary.successful
          = ([c10Res] : List JsonValue).length) :=
  ⟨⟨by decide, by decide, by decide, rfl⟩,
   process_batch_short_array [[], []] [c10Res] 7 1 "" "" 5 c10EnvW
     (by decide) (by decide) (by decide) rfl⟩

/-! ### The 2500/1000 concrete scenario (claim C4) -/

theorem c4_build (bid : Nat) (rq rt : String) :
    ∀ (k i : Nat), buildResults bid rq rt i (List.replicate k (c4Txn, c4Res))
      = .ok (List.replicate k
          (⟨.str "t", .str "h", .bool false, .str "ok", .num 1, .obj [],
            rq, rt⟩ : TransactionResult)) := by
  intro k
  induction k with
  | zero => intro i; rfl
  | succ k ih =>
    intro i
    rw [List.replicate_succ]
    have hstep : buildResults bid rq rt i
        ((c4Txn, c4Res) :: List.replicate k (c4Txn, c4Res))
        = match buildResults bid rq rt (i + 1) (List.replicate k (c4Txn, c4Res)) with
          | .error e => .error e
          | .ok tl => .ok ((⟨.str "t", .str "h", .bool false, .str "ok",
              .num 1, .obj [], rq, rt⟩ : TransactionResult) :: tl) := rfl
    rw [hstep, ih (i + 1)]
    rfl

theorem c4_batch (bid k : Nat) (d : ℚ) (rq rt : String) :
    processBatch (List.replicate k c4Txn) bid
        ⟨200, some (.arr (List.replicate k c4Res))⟩ d rq rt
      = .ok { batch_id := bid, total_transactions := k, successful := k,
              failed := 0,
              results := List.replicate k
                (⟨.str "t", .str "h", .bool false, .str "ok", .num 1,
                  .obj [], rq, rt⟩ : TransactionResult),
              duration_seconds := d, throughput := throughputOf k d } := by
  have hzip : (List.replicate k c4Txn).zip (List.replicate k c4Res)
      = List.replicate k (c4Txn, c4Res) := by simp
  unfold processBatch
  dsimp only
  rw [if_neg (fun h => h rfl)]
  simp only [jsonIter, hzip, c4_build bid rq rt k 0]
  simp

theorem c4_batch_fail (d : ℚ) (rq rt : String) :
    processBatch (List.replicate 1000 c4Txn) 2
        ⟨500, some (.obj [("detail", JsonValue.str "boom")])⟩ d rq rt
      = .error (.requestException "Batch 2 failed with status 500: boom") := by
  unfold processBatch
  dsimp only
  rw [if_pos (by decide)]
  rfl

/-- Claim C4: on 2500 transactions with batch size 1000 — three
submissions of sizes 1000, 1000, 500 — where the second submission fails
with a transport error and the others succeed with full-length result
arrays, the summary reports successful 1500, failed 1000, exactly one
failed-batches entry with batch id 2, and the 1500 results are the 1000
results of batch 1 followed by the 500 results of batch 3, in original
relative order. -/
theorem process_all_concrete_scenario :
    (processAll 1000 false false c4Env c4Txns).summary.successful = 1500
    ∧ (processAll 1000 false false c4Env c4Txns).summary.failed = 1000
    ∧ (processAll 1000 false false c4Env c4Txns).summary.failed_batches
        = [(2, "Batch 2 failed with status 500: boom")]
    ∧ (processAll 1000 false false c4Env c4Txns).summary.results
        = List.replicate 1000 (c4TRes 1) ++ List.replicate 500 (c4TRes 3) := by
  have hlen : c4Txns.length = 2500 := by
    rw [show c4Txns = List.replicate 2500 c4Txn from rfl, List.length_replicate]
  have hEB : effectiveBatchSize 1000 = 1000 := rfl
  have hstarts : chunkStarts 2500 1000 = [0, 1000, 2000] := rfl
  have hc0 : chunkOf c4Txns 1000 0 = List.replicate 1000 c4Txn := by
    norm_num [chunkOf, c4Txns]
  have hc1 : chunkOf c4Txns 1000 1000 = List.replicate 1000 c4Txn := by
    norm_num [chunkOf, c4Txns]
  have hc2 : chunkOf c4Txns 1000 2000 = List.replicate 500 c4Txn := by
    norm_num [chunkOf, c4Txns]
  have hstep0 : processAllStep 1000 false false c4Env c4Txns
      ⟨[], [], [], [], []⟩ 0
      = ⟨List.replicate 1000 (c4TRes 1), [], [], [],
         [List.replicate 1000 c4Txn]⟩ := by
    unfold processAllStep
    dsimp only
    rw [show (0 : Nat) / 1000 + 1 = 1 from rfl,
        show c4Env.resp 1 = ⟨200, some (.arr (List.replicate 1000 c4Res))⟩ from rfl,
        hc0, c4_batch]
    rfl
  have hstep1 : processAllStep 1000 false false c4Env c4Txns
      ⟨List.replicate 1000 (c4TRes 1), [], [], [],
       [List.replicate 1000 c4Txn]⟩ 1000
      = ⟨List.replicate 1000 (c4TRes 1),
         [(2, "Batch 2 failed with status 500: boom")], [], [],
         [List.replicate 1000 c4Txn, List.replicate 1000 c4Txn]⟩ := by
    unfold processAllStep
    dsimp only
    rw [show (1000 : Nat) / 1000 + 1 = 2 from rfl,
        show c4Env.resp 2 = ⟨500, some (.obj [("detail", JsonValue.str "boom")])⟩
          from rfl,
        hc1, c4_batch_fail]
    rfl
  have hstep2 : processAllStep 1000 false false c4Env c4Txns
      ⟨List.replicate 1000 (c4TRes 1),
       [(2, "Batch 2 failed with status 500: boom")], [], [],
       [List.replicate 1000 c4Txn, List.replicate 1000 c4Txn]⟩ 2000
      = ⟨List.replicate 1000 (c4TRes 1) ++ List.replicate 500 (c4TRes 3),
         [(2, "Batch 2 failed with status 500: boom")], [], [],
         [List.replicate 1000 c4Txn, List.replicate 1000 c4Txn,
          List.replicate 500 c4Txn]⟩ := by
    unfold processAllStep
    dsimp only
    rw [show (2000 : Nat) / 1000 + 1 = 3 from rfl,
        show c4Env.resp 3 = ⟨200, some (.arr (List.replicate 500 c4Res))⟩ from rfl,
        hc2, c4_batch]
    rfl
  unfold processAll
  dsimp only
  rw [hlen, hEB, hstarts]
  simp only [List.foldl_cons, List.foldl_nil]
  rw [hstep0, hstep1, hstep2]
  refine ⟨?_, ?_, rfl, rfl⟩
  · show (List.replicate 1000 (c4TRes 1) ++ List.replicate 500 (c4TRes 3)).length
      = 1500
    rw [List.length_append, List.length_replicate, List.length_replicate]
  · show (2500 : Int)
      - (List.replicate 1000 (c4TRes 1) ++ List.replicate 500 (c4TRes 3)).length
      = 1000
    rw [List.length_append, List.length_replicate, List.length_replicate]
    norm_num

end Kosha
